import Mathlib

set_option maxRecDepth 8000

/-!
Shallow embedding of `perplexity_automation.py` (crypto news automation).
Strings are modelled as `List Char` where character-level manipulation
matters, and as `String` where they are opaque tokens (URLs, ids).
-/

/-- Python whitespace predicate, as used by `str.strip`. -/
def pyIsSpace (c : Char) : Bool :=
  c = ' ' || c = '\t' || c = '\n' || c = '\x0b' || c = '\x0c' || c = '\r'

/-- Length of a string with spaces removed, mirroring
`len(s.replace(' ', ''))` from `format_crypto_summary`. -/
def spaceFreeLen (l : List Char) : Nat :=
  (l.filter (fun c => c ≠ ' ')).length

/-- Length of a string with all whitespace removed (the spec's
"whitespace-free length"). -/
def wsFreeLen (l : List Char) : Nat :=
  (l.filter (fun c => !(pyIsSpace c))).length

/-- Python `str.strip()`: drop leading and trailing whitespace. -/
def pyStrip (l : List Char) : List Char :=
  ((l.dropWhile pyIsSpace).reverse.dropWhile pyIsSpace).reverse

/-- Helper for Python `str.split(sep)` with a one-character separator:
returns the first segment and the remaining segments. -/
def splitOnAux (sep : Char) : List Char → List Char × List (List Char)
  | [] => ([], [])
  | c :: rest =>
    let p := splitOnAux sep rest
    if c = sep then ([], p.1 :: p.2) else (c :: p.1, p.2)

/-- Python `str.split(sep)` for a one-character separator. -/
def splitOnChar (sep : Char) (l : List Char) : List (List Char) :=
  (splitOnAux sep l).1 :: (splitOnAux sep l).2

/-- Python `sep.join(parts)` for a one-character separator. -/
def joinSep (sep : Char) : List (List Char) → List Char
  | [] => []
  | [s] => s
  | s :: ss => s ++ sep :: joinSep sep ss

/-- Worker for Python `str.replace(pat, repl)`: the first argument counts
characters of a matched pattern still to be consumed. -/
def replaceAux (pat repl : List Char) : Nat → List Char → List Char
  | _, [] => []
  | Nat.succ skip, _ :: rest => replaceAux pat repl skip rest
  | 0, c :: rest =>
    if pat.isPrefixOf (c :: rest) && !pat.isEmpty then
      repl ++ replaceAux pat repl (pat.length - 1) rest
    else
      c :: replaceAux pat repl 0 rest

/-- Python `str.replace(pat, repl)`: replace non-overlapping occurrences
of `pat` left to right. -/
def replaceList (pat repl l : List Char) : List Char :=
  replaceAux pat repl 0 l

/-- The character-accumulation loop of `format_crypto_summary`
(lines 277-282): walk the text, stopping as soon as the accumulated
space-free length reaches `available`. -/
def truncateLoop (available : Int) : List Char → List Char → List Char
  | acc, [] => acc
  | acc, c :: rest =>
    if available ≤ (spaceFreeLen acc : Int) then acc
    else truncateLoop available (acc ++ [c]) rest

/-- Sentence-boundary trimming of `format_crypto_summary` (lines 284-288):
split on periods and, when more than one segment exists, keep all complete
sentences with a trailing period. -/
def dropPartialSentence (l : List Char) : List Char :=
  let sentences := splitOnChar '.' l
  if 1 < sentences.length then joinSep '.' sentences.dropLast ++ ['.'] else l

/-- The fixed header text preceding the date (line 262). -/
def headerPrefix : List Char := "📈 CRYPTO MARKET UPDATE - ".toList

/-- The fixed hashtag footer (line 265). -/
def hashtagsText : List Char := "\n\n#CryptoNews #MarketOverview".toList

/-- The full header, `f"📈 CRYPTO MARKET UPDATE - {date}\n\n"`. -/
def headerOf (dateStr : List Char) : List Char :=
  headerPrefix ++ dateStr ++ ['\n', '\n']

/-- Lines 268-270: available budget of 1500 characters counted without
spaces, minus the space-free lengths of header and hashtags. -/
def availableChars (dateStr : List Char) : Int :=
  1500 - (spaceFreeLen (headerOf dateStr) : Int) - (spaceFreeLen hashtagsText : Int)

/-- Lines 254-259 of `format_crypto_summary`: collapse lines into one
paragraph and strip markdown emphasis and heading markers. -/
def cleanedText (content : List Char) : List Char :=
  let lines := ((splitOnChar '\n' content).map pyStrip).filter (fun l => !l.isEmpty)
  let t0 := joinSep ' ' lines
  let t1 := replaceList ['*', '*'] [] t0
  let t2 := replaceList ['*'] [] t1
  let t3 := replaceList ['#', '#', '#'] [] t2
  let t4 := replaceList ['#', '#'] [] t3
  replaceList ['#'] [] t4

/-- The truncation window: the text accumulated by the character walk. -/
def truncatedWindow (dateStr content : List Char) : List Char :=
  truncateLoop (availableChars dateStr) [] (cleanedText content)

/-- The body placed between header and hashtags (lines 272-290). -/
def formattedBody (dateStr content : List Char) : List Char :=
  let t := cleanedText content
  if availableChars dateStr < (spaceFreeLen t : Int) then
    pyStrip (dropPartialSentence (truncateLoop (availableChars dateStr) [] t))
  else t

/-- `format_crypto_summary` (lines 250-302): header, truncated body,
hashtag footer. -/
def format_crypto_summary (dateStr content : List Char) : List Char :=
  headerOf dateStr ++ formattedBody dateStr content ++ hashtagsText

/-- The claim's available budget: 1500 minus the whitespace-free lengths
of header and footer (the spec measures header/footer whitespace-free,
the code measures them space-free). -/
def specAvailableBudget (dateStr : List Char) : Int :=
  1500 - (wsFreeLen (headerOf dateStr) : Int) - (wsFreeLen hashtagsText : Int)

example : splitOnChar '.' "a.b".toList = ["a".toList, "b".toList] := by decide
example : splitOnChar '.' "".toList = [[]] := by decide
example : joinSep '.' ["a".toList, "b".toList] = "a.b".toList := by decide
example : replaceList ['*', '*'] [] "a**b*c".toList = "ab*c".toList := by decide
example : replaceList ['*'] [] "ab*c".toList = "abc".toList := by decide
example : pyStrip "  ab . ".toList = "ab .".toList := by decide
example : truncateLoop 2 [] "a bcd".toList = "a b".toList := by decide
example : dropPartialSentence "ab.cd.ef".toList = "ab.cd.".toList := by decide
example : dropPartialSentence "abcd".toList = "abcd".toList := by decide

/-! ## API payload model and response parsing (`_make_request`, lines 176-248) -/

/-- An entry of an image list in the raw payload: either a bare URL string
or a JSON object, whose `url` field may be absent (`obj none`). -/
inductive ImageEntry where
  | bare (s : String)
  | obj (url : Option String)
deriving DecidableEq

/-- The `message` object of a choice; `content` may be absent. -/
structure PyMessage where
  content : Option String
deriving DecidableEq

/-- One element of the `choices` array.  The per-choice image list is part
of the payload shape (the spec's image location 2) even though the code
never reads it. -/
structure PyChoice where
  message : Option PyMessage
  images : List ImageEntry
deriving DecidableEq

/-- One entry of `provider_metadata.perplexity.images`: the URL may sit
under `imageUrl` or under `url`, or both may be absent. -/
structure PMEntry where
  imageUrl : Option String
  url : Option String
deriving DecidableEq

/-- The `perplexity` object inside `provider_metadata`. -/
structure PPerplexity where
  images : Option (List PMEntry)
deriving DecidableEq

/-- The `provider_metadata` object. -/
structure ProviderMetadata where
  perplexity : Option PPerplexity
deriving DecidableEq

/-- The decoded JSON payload, restricted to the fields the code touches
plus the per-choice image lists named by the spec.  `none` models an
absent key. -/
structure RawPayload where
  choices : Option (List PyChoice)
  citations : Option (List String)
  model : Option String
  usage : Option (List (String × Nat))
  images : Option (List ImageEntry)
  provider_metadata : Option ProviderMetadata
deriving DecidableEq

/-- The `PerplexityResponse` dataclass (lines 33-40). -/
structure PerplexityResponse where
  content : String
  citations : List String
  model : String
  usage : List (String × Nat)
  images : List String
deriving DecidableEq

/-- A Python exception as seen by `generate_with_retry`: whether it is a
`requests.exceptions.RequestException` instance, and its message. -/
structure PyExc where
  isRequestException : Bool
  msg : String
deriving DecidableEq

/-- Loop body of image extraction method 1 (lines 202-206): a bare string
is appended, an object is appended when it carries a `url` key. -/
def imgStep (acc : List String) (img : ImageEntry) : List String :=
  match img with
  | ImageEntry.bare s => acc ++ [s]
  | ImageEntry.obj (some u) => acc ++ [u]
  | ImageEntry.obj none => acc

/-- Loop body of image extraction method 2 (lines 212-216): `imageUrl`
is preferred, then `url`, else the entry is skipped. -/
def pmStep (acc : List String) (img : PMEntry) : List String :=
  match img.imageUrl with
  | some u => acc ++ [u]
  | none =>
    match img.url with
    | some u => acc ++ [u]
    | none => acc

/-- Image extraction of `_make_request` (lines 197-216): method 1 reads the
top-level `images` list, method 2 reads `provider_metadata.perplexity.images`;
results are appended into one list, in that order, with no de-duplication.
The per-choice lists are never consulted. -/
def extractImages (result : RawPayload) : List String :=
  let images1 : List String :=
    match result.images with
    | some l => l.foldl imgStep []
    | none => []
  let images2 : List String :=
    match result.provider_metadata with
    | some md =>
      match md.perplexity with
      | some pp =>
        match pp.images with
        | some l => l.foldl pmStep []
        | none => []
      | none => []
    | none => []
  images1 ++ images2

/-- Message of the exception wrapping `KeyError`/`JSONDecodeError`
(line 248). -/
def invalidFormatMsg : String := "Invalid response format"

/-- Message of the uncaught `IndexError` raised by `result['choices'][0]`
on an empty list (not converted by line 247, which only catches
`KeyError` and `JSONDecodeError`). -/
def indexErrorMsg : String := "list index out of range"

/-- Payload parsing of `_make_request` (lines 192-224): the mandatory text
field is `choices[0].message.content`; a missing key raises `KeyError`,
converted to a plain `Exception` (line 248); an empty `choices` raises a
plain `IndexError`.  Optional fields default via `.get`. -/
def parseResult (result : RawPayload) : Except PyExc PerplexityResponse :=
  match result.choices with
  | none => Except.error ⟨false, invalidFormatMsg⟩
  | some [] => Except.error ⟨false, indexErrorMsg⟩
  | some (choice0 :: _) =>
    match choice0.message with
    | none => Except.error ⟨false, invalidFormatMsg⟩
    | some m =>
      match m.content with
      | none => Except.error ⟨false, invalidFormatMsg⟩
      | some content =>
        Except.ok
          { content := content
            citations := result.citations.getD []
            model := result.model.getD "unknown"
            usage := result.usage.getD []
            images := extractImages result }

/-- What one call to `requests.post` + status/decoding yields: a timeout,
another request-level exception, or a response with a status code, an
optional decoded JSON body (`none` models a `JSONDecodeError`) and a
response text. -/
inductive TransResult where
  | timeout
  | reqExc (msg : String)
  | resp (status : Nat) (body : Option RawPayload) (text : String)
deriving DecidableEq

/-- Message raised for HTTP 401 (line 228). -/
def authErrorMsg : String := "Invalid API key. Please check your Perplexity API key."

/-- Message raised for HTTP 429 (line 230). -/
def rateErrorMsg : String := "Rate limit exceeded. Please try again later."

/-- `_make_request` (lines 176-248).  Every exception raised by this
function is a plain `Exception` (`isRequestException = false`): the
`except` clauses at lines 226-248 catch each `requests` exception and
re-raise a bare `Exception`. -/
def make_request (t : TransResult) : Except PyExc PerplexityResponse :=
  match t with
  | TransResult.timeout => Except.error ⟨false, "Request timeout. Please try again."⟩
  | TransResult.reqExc m => Except.error ⟨false, "Request failed: " ++ m⟩
  | TransResult.resp status body text =>
    if 400 ≤ status ∧ status < 600 then
      if status = 401 then Except.error ⟨false, authErrorMsg⟩
      else if status = 429 then Except.error ⟨false, rateErrorMsg⟩
      else if 500 ≤ status then Except.error ⟨false, "Server error: " ++ toString status⟩
      else Except.error ⟨false, "HTTP error " ++ toString status ++ ": " ++ text⟩
    else
      match body with
      | none => Except.error ⟨false, invalidFormatMsg⟩
      | some payload => parseResult payload

/-! ## Retry loop (`generate_with_retry`, lines 140-174) -/

/-- Python `str.lower()` (ASCII suffices for the messages involved). -/
def pyLower (l : List Char) : List Char := l.map Char.toLower

/-- Python `needle in haystack` substring test. -/
def containsSub (needle : List Char) : List Char → Bool
  | [] => needle.isEmpty
  | c :: rest => needle.isPrefixOf (c :: rest) || containsSub needle rest

/-- The rate-limit marker `"rate_limit"` checked at line 155. -/
def rateNeedle : List Char := "rate_limit".toList

/-- The rate-limit marker `"429"` checked at line 155. -/
def code429Needle : List Char := "429".toList

deriving instance DecidableEq for Except

/-- Outcome of a `generate_with_retry` run: the returned response or the
propagated exception, the sleep durations in seconds (in order), and how
many times `_make_request` was called. -/
structure RetryResult where
  outcome : Except PyExc PerplexityResponse
  sleeps : List ℚ
  attempts : Nat
deriving DecidableEq

/-- One iteration structure of the `while retries < max_retries` loop.
`fuel` is the loop variant `max_retries - retries`; `trans` gives the
simulated transport outcome of each attempt and `u` the value drawn by
`random.uniform(0, 1)` before each rate-limit retry. -/
def retryAux (trans : Nat → TransResult) (u : Nat → ℚ) (max_retries : Nat) :
    Nat → Nat → List ℚ → Nat → RetryResult
  | 0, _, sleeps, attempts =>
    ⟨Except.error ⟨false, "Max retries (" ++ toString max_retries ++ ") exceeded"⟩,
      sleeps, attempts⟩
  | fuel + 1, retries, sleeps, attempts =>
    match make_request (trans retries) with
    | Except.ok r => ⟨Except.ok r, sleeps, attempts + 1⟩
    | Except.error e =>
      if e.isRequestException &&
          (containsSub rateNeedle (pyLower e.msg.toList) ||
            containsSub code429Needle (pyLower e.msg.toList)) then
        retryAux trans u max_retries fuel (retries + 1)
          (sleeps ++ [2 ^ retries + u retries]) (attempts + 1)
      else if e.isRequestException && decide (retries < max_retries - 1) then
        retryAux trans u max_retries fuel (retries + 1) (sleeps ++ [1]) (attempts + 1)
      else if e.isRequestException then
        ⟨Except.error e, sleeps, attempts + 1⟩
      else if retries < max_retries - 1 then
        retryAux trans u max_retries fuel (retries + 1) (sleeps ++ [1]) (attempts + 1)
      else
        ⟨Except.error e, sleeps, attempts + 1⟩

/-- `generate_with_retry` (lines 140-174), with the loop variant
`max_retries - retries` as fuel. -/
def generate_with_retry (trans : Nat → TransResult) (u : Nat → ℚ)
    (max_retries : Nat) : RetryResult :=
  retryAux trans u max_retries max_retries 0 [] 0

/-! ## Telegram delivery model (`TelegramChannelBot`, lines 304-399) and
orchestrator (`main`, lines 415-494) -/

/-- One HTTP call to the Telegram Bot API, with the request fields the
code fills in. -/
inductive SendCall where
  | sendPhoto (chat_id photo_path caption parse_mode : String)
  | sendMessage (chat_id text parse_mode : String) (disable_preview : Bool)
deriving DecidableEq

/-- The text content carried by a send call (caption of a photo, text of
a message). -/
def contentOf : SendCall → String
  | SendCall.sendPhoto _ _ caption _ => caption
  | SendCall.sendMessage _ text _ _ => text

/-- The markup dialect constant passed as `parse_mode`. -/
def markdownMode : String := "Markdown"

/-- `send_photo_with_caption` (lines 354-376): one `sendPhoto` call with
the caption passed through unchanged (no truncation appears in the code). -/
def send_photo_with_caption (channel_id photo_path caption : String) : SendCall :=
  SendCall.sendPhoto channel_id photo_path caption markdownMode

/-- `send_message` (lines 378-399): one `sendMessage` call carrying the
whole text (no splitting appears in the code). -/
def send_message (channel_id text : String) : SendCall :=
  SendCall.sendMessage channel_id text markdownMode true

/-- The photo-vs-text decision of `main` (lines 470-478): a photo with the
first downloaded image whenever at least one download succeeded, else a
plain text message.  Exactly one call is emitted either way. -/
def publishStep (channel_id : String) (downloaded_images : List String)
    (crypto_summary : String) : List SendCall :=
  match downloaded_images with
  | first :: _ => [send_photo_with_caption channel_id first crypto_summary]
  | [] => [send_message channel_id crypto_summary]

/-- Simulated outcome of one `download_image` call (lines 312-352):
either the download completes and the scratch path is returned, or an
exception fires after the scratch file was created
(`tempfile.NamedTemporaryFile(delete=False)`, line 335) so the handler
returns `None` with the file left on disk, or the exception fires before
any file exists. -/
inductive DlOutcome where
  | ok (path : String)
  | failAfterCreate (path : String)
  | failBeforeCreate
deriving DecidableEq

/-- `download_image` as a state transformer on the set of scratch files:
returns the new scratch-file list and the optional local path. -/
def download_image (fs : List String) : DlOutcome → List String × Option String
  | DlOutcome.ok p => (fs ++ [p], some p)
  | DlOutcome.failAfterCreate p => (fs ++ [p], none)
  | DlOutcome.failBeforeCreate => (fs, none)

/-- The download loop of `main` (lines 459-467) over the first three image
URLs: threads the scratch files and accumulates `temp_files` (equal to
`downloaded_images`, since both record exactly the successful paths). -/
def runDownloads (dl : String → DlOutcome) (urls : List String) :
    List String × List String :=
  urls.foldl (fun st url =>
    let r := download_image st.1 (dl url)
    match r.2 with
    | some p => (r.1, st.2 ++ [p])
    | none => (r.1, st.2)) ([], [])

/-- `cleanup_temp_files` (lines 401-409): remove each listed path from the
scratch directory (`os.remove` guarded by existence). -/
def cleanup_temp_files (file_paths fs : List String) : List String :=
  file_paths.foldl (fun acc p => acc.filter (fun q => q ≠ p)) fs

/-- `is_weekday` (lines 411-413): Monday is 0 and Sunday is 6 in
`datetime.weekday()`. -/
def is_weekday (weekdayNum : Nat) : Bool := weekdayNum < 5

/-- The three environment variables read by `main` (lines 426-428). -/
structure EnvVars where
  perplexity_api_key : String
  telegram_bot_token : String
  telegram_channel_id : String
deriving DecidableEq

/-- Python `str.strip()` on a `String`. -/
def pyStripStr (s : String) : String := String.mk (pyStrip s.toList)

/-- Observable result of one run of `main`: process exit code, number of
Perplexity API attempts, Telegram send calls made, number of image
download requests issued, and the scratch files remaining at the end. -/
structure MainResult where
  exitCode : Nat
  apiAttempts : Nat
  sends : List SendCall
  downloads : Nat
  fsFiles : List String
deriving DecidableEq

/-- `main` (lines 415-494): weekday gate, credential validation, content
generation with retry, image downloads (first three URLs), photo-or-text
publish, then unconditional `cleanup_temp_files` in the `finally` block.
Parameters simulate the collaborators: `wd` the current weekday number,
`dateStr` the formatted date, `trans`/`u` the API transport and jitter,
`dl` the per-URL download outcome, `sendOk` whether a send succeeds. -/
def mainRun (wd : Nat) (dateStr : List Char) (env : EnvVars)
    (trans : Nat → TransResult) (u : Nat → ℚ) (dl : String → DlOutcome)
    (sendOk : SendCall → Bool) : MainResult :=
  if !is_weekday wd then ⟨0, 0, [], 0, []⟩
  else
    let key := pyStripStr env.perplexity_api_key
    let tok := pyStripStr env.telegram_bot_token
    let chan := pyStripStr env.telegram_channel_id
    if key = "" ∨ tok = "" ∨ chan = "" then ⟨1, 0, [], 0, []⟩
    else
      let r := generate_with_retry trans u 3
      match r.outcome with
      | Except.error _ => ⟨1, r.attempts, [], 0, []⟩
      | Except.ok resp =>
        let summary := String.mk (format_crypto_summary dateStr resp.content.toList)
        let urls := resp.images.take 3
        let dlRes := runDownloads dl urls
        let calls := publishStep chan dlRes.2 summary
        let success := calls.all sendOk
        let fsFinal := cleanup_temp_files dlRes.2 dlRes.1
        ⟨if success then 0 else 1, r.attempts, calls, urls.length, fsFinal⟩

/-! ## Concrete fixtures used by the claim theorems -/

/-- Zero jitter: `random.uniform(0, 1)` returning 0. -/
def uZero : Nat → ℚ := fun _ => 0

/-- A transport whose every attempt yields HTTP 401. -/
def trans401 : Nat → TransResult := fun _ => TransResult.resp 401 none ""

/-- A well-formed first choice carrying the mandatory text. -/
def goodChoice : PyChoice := ⟨some ⟨some "news"⟩, []⟩

/-- A minimal well-formed payload with no images. -/
def goodPayload : RawPayload := ⟨some [goodChoice], none, none, none, none, none⟩

/-- The parsed response for `goodPayload`. -/
def goodResp : PerplexityResponse := ⟨"news", [], "unknown", [], []⟩

/-- A transport yielding HTTP 429 on the first two attempts and a
well-formed HTTP 200 on the third. -/
def trans429 : Nat → TransResult := fun n =>
  if n < 2 then TransResult.resp 429 none "" else TransResult.resp 200 (some goodPayload) ""

/-- A payload whose first choice's message lacks `content`. -/
def payloadNoContent : RawPayload := ⟨some [⟨some ⟨none⟩, []⟩], none, none, none, none, none⟩

/-- A transport always answering HTTP 200 with `payloadNoContent`. -/
def transNoContent : Nat → TransResult := fun _ => TransResult.resp 200 (some payloadNoContent) ""

/-- A transport always answering HTTP 200 with an undecodable body. -/
def transBadJson : Nat → TransResult := fun _ => TransResult.resp 200 none ""

example : generate_with_retry trans401 uZero 3 =
    ⟨Except.error ⟨false, authErrorMsg⟩, [1, 1], 3⟩ := by decide
example : generate_with_retry trans429 uZero 3 = ⟨Except.ok goodResp, [1, 1], 3⟩ := by decide
example : generate_with_retry transNoContent uZero 3 =
    ⟨Except.error ⟨false, invalidFormatMsg⟩, [1, 1], 3⟩ := by decide
example : generate_with_retry transBadJson uZero 3 =
    ⟨Except.error ⟨false, invalidFormatMsg⟩, [1, 1], 3⟩ := by decide

/-- A payload carrying `us` as top-level bare-string images (the spec's
image location 1), with the mandatory text present. -/
def payloadLoc1 (us : List String) : RawPayload :=
  ⟨some [goodChoice], none, none, none, some (us.map ImageEntry.bare), none⟩

/-- A payload carrying `us` as per-choice images (the spec's image
location 2), with the mandatory text present. -/
def payloadLoc2 (us : List String) : RawPayload :=
  ⟨some [⟨some ⟨some "news"⟩, us.map ImageEntry.bare⟩], none, none, none, none, none⟩

/-- A payload carrying `us` under `provider_metadata.perplexity.images`
with `imageUrl` keys (the spec's image location 3), with the mandatory
text present. -/
def payloadLoc3 (us : List String) : RawPayload :=
  ⟨some [goodChoice], none, none, none, none,
    some ⟨some ⟨some (us.map (fun u => ⟨some u, none⟩))⟩⟩⟩

/-- The parsed response whose image list is `us` and whose other fields
are the defaults of `goodPayload`. -/
def respWithImages (us : List String) : PerplexityResponse :=
  ⟨"news", [], "unknown", [], us⟩

example : parseResult (payloadLoc1 ["u1", "u2"]) = Except.ok (respWithImages ["u1", "u2"]) := by
  decide
example : parseResult (payloadLoc2 ["u1", "u2"]) = Except.ok (respWithImages []) := by decide
example : parseResult (payloadLoc3 ["u1", "u2"]) = Except.ok (respWithImages ["u1", "u2"]) := by
  decide
example : parseResult (payloadLoc1 ["u1", "u1"]) = Except.ok (respWithImages ["u1", "u1"]) := by
  decide

/-- A concrete formatted date for the header. -/
def dateOct : List Char := "October 10, 2025".toList

/-- Concrete non-empty credentials. -/
def envOk : EnvVars := ⟨"pplx-key", "12345:token", "@channel"⟩

/-- A transport always answering HTTP 200 with one top-level image. -/
def transOneImage : Nat → TransResult := fun _ =>
  TransResult.resp 200 (some (payloadLoc1 ["u1"])) ""

/-- A download that always fails after the scratch file was created. -/
def dlLeak : String → DlOutcome := fun _ => DlOutcome.failAfterCreate "/tmp/img.jpg"

/-- Sends that always succeed. -/
def sendAlwaysOk : SendCall → Bool := fun _ => true

example : mainRun 5 dateOct envOk trans401 uZero dlLeak sendAlwaysOk = ⟨0, 0, [], 0, []⟩ := by
  decide
example : (mainRun 0 dateOct envOk transOneImage uZero dlLeak sendAlwaysOk).fsFiles =
    ["/tmp/img.jpg"] := by decide
example : (mainRun 0 dateOct envOk transOneImage uZero dlLeak sendAlwaysOk).exitCode = 0 := by
  decide

/-! ## Helper lemmas about the text pipeline -/

theorem filterLength_mono {p q : Char → Bool} (h : ∀ a, p a = true → q a = true)
    (l : List Char) : (l.filter p).length ≤ (l.filter q).length :=
  (List.monotone_filter_right l h).length_le

theorem wsFreeLen_le_spaceFreeLen (l : List Char) : wsFreeLen l ≤ spaceFreeLen l := by
  refine filterLength_mono ?_ l
  intro a ha
  by_cases hsp : a = ' '
  · subst hsp
    simp [pyIsSpace] at ha
  · simp [hsp]

theorem spaceFreeLen_of_sublist {l m : List Char} (h : List.Sublist l m) :
    spaceFreeLen l ≤ spaceFreeLen m :=
  (h.filter _).length_le

theorem spaceFreeLen_append (a b : List Char) :
    spaceFreeLen (a ++ b) = spaceFreeLen a + spaceFreeLen b := by
  unfold spaceFreeLen
  rw [List.filter_append, List.length_append]

theorem spaceFreeLen_singleton_le (c : Char) : spaceFreeLen [c] ≤ 1 := by
  have h := List.length_filter_le (fun c => decide (c ≠ ' ')) [c]
  simpa [spaceFreeLen] using h

theorem truncateLoop_spaceFree_le (available : Int) :
    ∀ (l acc : List Char), (spaceFreeLen acc : Int) ≤ available →
      (spaceFreeLen (truncateLoop available acc l) : Int) ≤ available := by
  intro l
  induction l with
  | nil => intro acc h; simpa [truncateLoop] using h
  | cons c rest ih =>
    intro acc h
    rw [truncateLoop]
    by_cases hb : available ≤ (spaceFreeLen acc : Int)
    · rw [if_pos hb]; exact h
    · rw [if_neg hb]
      apply ih
      have h1 : spaceFreeLen (acc ++ [c]) = spaceFreeLen acc + spaceFreeLen [c] :=
        spaceFreeLen_append acc [c]
      have h2 := spaceFreeLen_singleton_le c
      have h3 : (spaceFreeLen acc : Int) < available := lt_of_not_le hb
      omega

theorem joinSep_splitOnAux (sep : Char) (l : List Char) :
    joinSep sep ((splitOnAux sep l).1 :: (splitOnAux sep l).2) = l := by
  induction l with
  | nil => rfl
  | cons c rest ih =>
    rcases hp : splitOnAux sep rest with ⟨s, ss⟩
    rw [hp] at ih
    by_cases hc : c = sep
    · have hsplit : splitOnAux sep (c :: rest) = ([], s :: ss) := by
        simp [splitOnAux, hp, hc]
      rw [hsplit]
      subst hc
      simpa [joinSep] using ih
    · have hsplit : splitOnAux sep (c :: rest) = (c :: s, ss) := by
        simp [splitOnAux, hp, hc]
      rw [hsplit]
      cases ss with
      | nil =>
        simp only [joinSep] at ih ⊢
        rw [ih]
      | cons s2 ss' =>
        simp only [joinSep, List.cons_append] at ih ⊢
        rw [ih]

theorem joinSep_splitOnChar (sep : Char) (l : List Char) :
    joinSep sep (splitOnChar sep l) = l :=
  joinSep_splitOnAux sep l

theorem splitOnAux_snd_ne_nil (sep : Char) {l : List Char} (h : sep ∈ l) :
    (splitOnAux sep l).2 ≠ [] := by
  induction l with
  | nil => cases h
  | cons c rest ih =>
    by_cases hc : c = sep
    · simp [splitOnAux, hc]
    · have hr : sep ∈ rest := by
        cases List.mem_cons.mp h with
        | inl h1 => exact absurd h1.symm hc
        | inr h2 => exact h2
      simpa [splitOnAux, hc] using ih hr

theorem joinSep_concat (sep : Char) (t : List Char) :
    ∀ ss : List (List Char), ss ≠ [] →
      joinSep sep (ss ++ [t]) = joinSep sep ss ++ sep :: t := by
  intro ss
  induction ss with
  | nil => intro h; exact absurd rfl h
  | cons s ss' ih =>
    intro _
    cases ss' with
    | nil => simp [joinSep]
    | cons s2 ss'' =>
      have hstep := ih (by simp)
      simp only [List.cons_append, List.append_eq, joinSep] at hstep ⊢
      rw [hstep]
      simp

theorem splitOnChar_ne_nil (sep : Char) (l : List Char) : splitOnChar sep l ≠ [] := by
  unfold splitOnChar
  exact List.cons_ne_nil _ _

theorem splitOnChar_length_gt {l : List Char} (h : '.' ∈ l) :
    1 < (splitOnChar '.' l).length := by
  unfold splitOnChar
  have h2 := splitOnAux_snd_ne_nil '.' h
  have h3 : 0 < (splitOnAux '.' l).2.length := List.length_pos.mpr h2
  simp only [List.length_cons]
  omega

theorem dropPartialSentence_def (l : List Char) :
    dropPartialSentence l =
      if 1 < (splitOnChar '.' l).length then
        joinSep '.' (splitOnChar '.' l).dropLast ++ ['.']
      else l := rfl

theorem dropPartialSentence_sublist (l : List Char) :
    List.Sublist (dropPartialSentence l) l := by
  rw [dropPartialSentence_def]
  by_cases h1 : 1 < (splitOnChar '.' l).length
  · rw [if_pos h1]
    have hne : splitOnChar '.' l ≠ [] := splitOnChar_ne_nil '.' l
    have hdne : (splitOnChar '.' l).dropLast ≠ [] := by
      have hlen : (splitOnChar '.' l).dropLast.length = (splitOnChar '.' l).length - 1 :=
        List.length_dropLast _
      intro hcontra
      rw [hcontra] at hlen
      simp only [List.length_nil] at hlen
      omega
    have hsplit : (splitOnChar '.' l).dropLast ++ [(splitOnChar '.' l).getLast hne] =
        splitOnChar '.' l := List.dropLast_append_getLast hne
    have hl : (joinSep '.' (splitOnChar '.' l).dropLast ++ ['.']) ++
        (splitOnChar '.' l).getLast hne = l := by
      rw [← List.append_cons, ← joinSep_concat '.' _ _ hdne, hsplit]
      exact joinSep_splitOnChar '.' l
    have hsub : List.Sublist (joinSep '.' (splitOnChar '.' l).dropLast ++ ['.'])
        ((joinSep '.' (splitOnChar '.' l).dropLast ++ ['.']) ++
          (splitOnChar '.' l).getLast hne) :=
      List.sublist_append_left _ _
    rwa [hl] at hsub
  · rw [if_neg h1]

theorem dropPartialSentence_getLast {l : List Char} (h : '.' ∈ l) :
    (dropPartialSentence l).getLast? = some '.' := by
  rw [dropPartialSentence_def, if_pos (splitOnChar_length_gt h)]
  exact List.getLast?_concat _

theorem pyStrip_sublist (l : List Char) : List.Sublist (pyStrip l) l := by
  unfold pyStrip
  have h2 : List.Sublist ((l.dropWhile pyIsSpace).reverse.dropWhile pyIsSpace)
      (l.dropWhile pyIsSpace).reverse := List.dropWhile_sublist pyIsSpace
  have h3 := h2.reverse
  rw [List.reverse_reverse] at h3
  exact h3.trans (List.dropWhile_sublist pyIsSpace)

theorem pyStrip_getLast {l : List Char} {c : Char} (hc : pyIsSpace c = false)
    (h : l.getLast? = some c) : (pyStrip l).getLast? = some c := by
  unfold pyStrip
  have hmem : c ∈ l := List.mem_of_mem_getLast? h
  have hne : l.dropWhile pyIsSpace ≠ [] := by
    rw [Ne, List.dropWhile_eq_nil_iff]
    push_neg
    exact ⟨c, hmem, by simp [hc]⟩
  have hlast : (l.dropWhile pyIsSpace).getLast? = some c := by
    have ht := List.takeWhile_append_dropWhile pyIsSpace l
    conv at h => rw [← ht]
    rwa [List.getLast?_append_of_ne_nil _ hne] at h
  have hhead : (l.dropWhile pyIsSpace).reverse.head? = some c := by
    rw [List.head?_reverse]
    exact hlast
  obtain ⟨t2, ht2⟩ : ∃ t2, (l.dropWhile pyIsSpace).reverse = c :: t2 := by
    cases hrev : (l.dropWhile pyIsSpace).reverse with
    | nil => rw [hrev] at hhead; cases hhead
    | cons x xs =>
      rw [hrev] at hhead
      simp only [List.head?_cons, Option.some_inj] at hhead
      exact ⟨xs, by rw [hhead]⟩
  rw [ht2, List.dropWhile_cons_of_neg (by simp [hc]), List.getLast?_reverse]
  rfl


theorem formattedBody_def (dateStr content : List Char) :
    formattedBody dateStr content =
      if availableChars dateStr < (spaceFreeLen (cleanedText content) : Int) then
        pyStrip (dropPartialSentence
          (truncateLoop (availableChars dateStr) [] (cleanedText content)))
      else cleanedText content := rfl

theorem availableChars_le_specBudget (dateStr : List Char) :
    availableChars dateStr ≤ specAvailableBudget dateStr := by
  unfold availableChars specAvailableBudget
  have h1 := wsFreeLen_le_spaceFreeLen (headerOf dateStr)
  have h2 := wsFreeLen_le_spaceFreeLen hashtagsText
  omega

theorem formattedBody_spaceFree_le {dateStr : List Char} (content : List Char)
    (h0 : 0 ≤ availableChars dateStr) :
    (spaceFreeLen (formattedBody dateStr content) : Int) ≤ availableChars dateStr := by
  rw [formattedBody_def]
  by_cases hc : availableChars dateStr < (spaceFreeLen (cleanedText content) : Int)
  · rw [if_pos hc]
    have htemp : (spaceFreeLen
        (truncateLoop (availableChars dateStr) [] (cleanedText content)) : Int) ≤
        availableChars dateStr :=
      truncateLoop_spaceFree_le _ _ _ (by simpa [spaceFreeLen] using h0)
    have hdp := spaceFreeLen_of_sublist (dropPartialSentence_sublist
      (truncateLoop (availableChars dateStr) [] (cleanedText content)))
    have hst := spaceFreeLen_of_sublist (pyStrip_sublist (dropPartialSentence
      (truncateLoop (availableChars dateStr) [] (cleanedText content))))
    omega
  · rw [if_neg hc]
    omega

/-- C3: for every input text, whenever the input's whitespace-free length
exceeds the available budget (1500 minus the whitespace-free lengths of
header and footer), the normalized body's whitespace-free length stays
within that budget; and when truncation fires and the truncation window
contains a period, the body ends with a period (the trailing partial
sentence is dropped).  The hypothesis `h0` records that the budget left
after header and footer is non-negative, as it is for any real date. -/
theorem c3_truncation_budget (dateStr content : List Char)
    (h0 : 0 ≤ availableChars dateStr) :
    (specAvailableBudget dateStr < (wsFreeLen content : Int) →
      (wsFreeLen (formattedBody dateStr content) : Int) ≤ specAvailableBudget dateStr) ∧
    (availableChars dateStr < (spaceFreeLen (cleanedText content) : Int) →
      ('.' ∈ truncatedWindow dateStr content) →
      (formattedBody dateStr content).getLast? = some '.') := by
  constructor
  · intro _
    have hbody := formattedBody_spaceFree_le content h0
    have hspec := availableChars_le_specBudget dateStr
    have hws := wsFreeLen_le_spaceFreeLen (formattedBody dateStr content)
    omega
  · intro hc hdot
    rw [formattedBody_def, if_pos hc]
    unfold truncatedWindow at hdot
    exact pyStrip_getLast (by decide) (dropPartialSentence_getLast hdot)

/-- Witness for C3 at a concrete date and text. -/
theorem c3_truncation_budget_witness :
    0 ≤ availableChars dateOct ∧
      ((specAvailableBudget dateOct < (wsFreeLen "a.b".toList : Int) →
        (wsFreeLen (formattedBody dateOct "a.b".toList) : Int) ≤
          specAvailableBudget dateOct) ∧
      (availableChars dateOct < (spaceFreeLen (cleanedText "a.b".toList) : Int) →
        ('.' ∈ truncatedWindow dateOct "a.b".toList) →
        (formattedBody dateOct "a.b".toList).getLast? = some '.')) :=
  ⟨by decide, c3_truncation_budget dateOct "a.b".toList (by decide)⟩

/-! ## Claim theorems -/

theorem foldl_imgStep_bare (us : List String) :
    ∀ acc : List String, (us.map ImageEntry.bare).foldl imgStep acc = acc ++ us := by
  induction us with
  | nil => intro acc; simp
  | cons u us' ih =>
    intro acc
    simp only [List.map_cons, List.foldl_cons, imgStep]
    rw [ih]
    simp

theorem foldl_pmStep_imageUrl (us : List String) :
    ∀ acc : List String,
      (us.map (fun u => PMEntry.mk (some u) none)).foldl pmStep acc = acc ++ us := by
  induction us with
  | nil => intro acc; simp
  | cons u us' ih =>
    intro acc
    simp only [List.map_cons, List.foldl_cons, pmStep]
    rw [ih]
    simp

/-- C1 (amended): the parse step collects image URLs from exactly two
locations — the top-level `images` list (location 1) followed by the
`provider_metadata.perplexity.images` list (location 3) — appending in
encounter order with no de-duplication; the per-choice image lists
(location 2) are ignored, so a payload carrying its images only there
parses with an empty image list; and the extraction result does not
depend on the `choices` field at all. -/
theorem c1_images_amended (us : List String) (r : RawPayload)
    (cs : Option (List PyChoice)) :
    parseResult (payloadLoc1 us) = Except.ok (respWithImages us) ∧
    parseResult (payloadLoc3 us) = Except.ok (respWithImages us) ∧
    parseResult (payloadLoc2 us) = Except.ok (respWithImages []) ∧
    extractImages { r with choices := cs } = extractImages r := by
  refine ⟨?_, ?_, ?_, rfl⟩
  · simp [parseResult, payloadLoc1, goodChoice, respWithImages, extractImages,
      foldl_imgStep_bare]
  · simp [parseResult, payloadLoc3, goodChoice, respWithImages, extractImages,
      foldl_pmStep_imageUrl]
  · simp [parseResult, payloadLoc2, respWithImages, extractImages]

/-- C1 counterexample: a payload with images only in the per-choice list
(location 2) parses with an empty image list while the same images in the
top-level list (location 1) are returned, so the three locations are not
interchangeable; and a duplicated top-level URL is returned twice, so no
de-duplication happens. -/
theorem c1_counterexample :
    parseResult (payloadLoc1 ["u1"]) = Except.ok (respWithImages ["u1"]) ∧
    parseResult (payloadLoc2 ["u1"]) = Except.ok (respWithImages []) ∧
    respWithImages ["u1"] ≠ respWithImages [] ∧
    parseResult (payloadLoc1 ["u1", "u1"]) =
      Except.ok (respWithImages ["u1", "u1"]) :=
  ⟨by decide, by decide, by decide, by decide⟩

/-- C2 (amended): an HTTP 401 raises a plain invalid-API-key exception
which the retry loop treats like any other generic error: it is retried
with a flat one-second sleep while attempts remain and propagates only on
the final attempt, so with the default `max_retries = 3` three attempts
and two one-second sleeps occur, whatever the jitter source yields. -/
theorem c2_auth_retried_amended (u : Nat → ℚ) :
    generate_with_retry trans401 u 3 =
      ⟨Except.error ⟨false, authErrorMsg⟩, [1, 1], 3⟩ := rfl

/-- C2 counterexample: against an endpoint that always answers 401 the
fetch makes three attempts and sleeps twice, not zero retries. -/
theorem c2_counterexample :
    generate_with_retry trans401 uZero 3 =
      ⟨Except.error ⟨false, authErrorMsg⟩, [1, 1], 3⟩ ∧
    (generate_with_retry trans401 uZero 3).attempts ≠ 1 ∧
    (generate_with_retry trans401 uZero 3).sleeps ≠ [] :=
  ⟨by decide, by decide, by decide⟩

/-- C4: against an endpoint answering 429 twice then 200, the fetch does
succeed on the third attempt, but both sleeps are the flat one-second
delay of the generic-exception path, independent of the jitter source:
the `2 ** retries + uniform(0, 1)` branch never fires because
`_make_request` converts the 429 `HTTPError` into a plain `Exception`
that is not a `RequestException` and whose text matches neither
`"rate_limit"` nor `"429"`. -/
theorem c4_rate_limit_flat_delay (u : Nat → ℚ) :
    generate_with_retry trans429 u 3 = ⟨Except.ok goodResp, [1, 1], 3⟩ := rfl

/-- C7 (amended): a decoded payload lacking the mandatory text field, or a
body that fails to decode, raises the generic invalid-response-format
exception; like every non-`RequestException` error it is retried with a
flat one-second delay until the final attempt, after which it propagates
and aborts the run — up to `max_retries` attempts are made, not one. -/
theorem c7_malformed_retried_amended (u : Nat → ℚ) :
    parseResult payloadNoContent = Except.error ⟨false, invalidFormatMsg⟩ ∧
    generate_with_retry transNoContent u 3 =
      ⟨Except.error ⟨false, invalidFormatMsg⟩, [1, 1], 3⟩ ∧
    generate_with_retry transBadJson u 3 =
      ⟨Except.error ⟨false, invalidFormatMsg⟩, [1, 1], 3⟩ :=
  ⟨rfl, rfl, rfl⟩

/-- C7 counterexample: a payload missing the text field is retried — three
request attempts are made, not one. -/
theorem c7_counterexample :
    (generate_with_retry transNoContent uZero 3).attempts = 3 ∧
    (generate_with_retry transNoContent uZero 3).sleeps = [1, 1] ∧
    (generate_with_retry transNoContent uZero 3).outcome =
      Except.error ⟨false, invalidFormatMsg⟩ :=
  ⟨by decide, by decide, by decide⟩

/-- A 2000-character message, longer than the 1024-character caption cap. -/
def msg2000 : String := (List.replicate 2000 'a').asString

/-- A 9000-character message with no double line breaks. -/
def msg9000 : String := (List.replicate 9000 'a').asString

theorem msg2000_length : msg2000.length = 2000 := by
  unfold msg2000
  rw [List.length_asString, List.length_replicate]

theorem msg9000_length : msg9000.length = 9000 := by
  unfold msg9000
  rw [List.length_asString, List.length_replicate]

/-- C5 (amended): with zero downloaded images the message is sent as text;
with one or more downloaded images the first is sent as a photo whose
caption is the entire message, untruncated — multiple images do not force
a text-only send, and no 1024-character caption cap is applied. -/
theorem c5_publish_decision_amended (channel msg p : String) (rest : List String) :
    publishStep channel [] msg = [send_message channel msg] ∧
    publishStep channel (p :: rest) msg = [send_photo_with_caption channel p msg] :=
  ⟨rfl, rfl⟩

/-- C5 counterexample: with two downloaded images the code sends a photo
of the first one rather than text only, and a 2000-character message is
passed as the caption without truncation to 1024 characters. -/
theorem c5_counterexample :
    publishStep "@chan" ["a.jpg", "b.jpg"] "hello" =
      [SendCall.sendPhoto "@chan" "a.jpg" "hello" markdownMode] ∧
    publishStep "@chan" ["a.jpg", "b.jpg"] "hello" ≠ [send_message "@chan" "hello"] ∧
    (publishStep "@chan" ["p.jpg"] msg2000).map contentOf = [msg2000] ∧
    ¬(msg2000.length ≤ 1024) := by
  refine ⟨rfl, by decide, rfl, ?_⟩
  rw [msg2000_length]
  omega

/-- C6 (amended): the publish step always emits exactly one channel call
whose text (or caption) is the entire message unchanged — there is no
length-based splitting into parts and no pacing delay between parts. -/
theorem c6_single_message_amended (channel msg : String) (imgs : List String) :
    (publishStep channel imgs msg).length = 1 ∧
    (publishStep channel imgs msg).map contentOf = [msg] := by
  cases imgs with
  | nil => exact ⟨rfl, rfl⟩
  | cons p rest => exact ⟨rfl, rfl⟩

/-- C6 counterexample: a 9000-character message with no double line breaks
is emitted as a single send call carrying all 9000 characters, so the
emitted part is not at most 4000 characters long. -/
theorem c6_counterexample :
    (publishStep "@chan" [] msg9000).map contentOf = [msg9000] ∧
    (publishStep "@chan" [] msg9000).length = 1 ∧
    ¬(msg9000.length ≤ 4000) := by
  refine ⟨rfl, rfl, ?_⟩
  rw [msg9000_length]
  omega

/-- C8: on a weekday run whose single image download raises after the
scratch file was created (connection dropped mid-stream), the partially
written scratch file is never added to `temp_files` — `download_image`
returns `None` without deleting it — so the `finally` cleanup does not
remove it and it survives the run, even though the run itself ends
successfully with exit code 0. -/
theorem c8_scratch_leak :
    (mainRun 0 dateOct envOk transOneImage uZero dlLeak sendAlwaysOk).fsFiles =
      ["/tmp/img.jpg"] ∧
    (mainRun 0 dateOct envOk transOneImage uZero dlLeak sendAlwaysOk).exitCode = 0 :=
  ⟨by decide, by decide⟩

/-- C9: a run started on Saturday (weekday 5) or Sunday (weekday 6) stops
at the weekday gate: no API attempt, no send, no download, no scratch
file, and exit code 0. -/
theorem c9_weekend_noop (wd : Nat) (dateStr : List Char) (env : EnvVars)
    (trans : Nat → TransResult) (u : Nat → ℚ) (dl : String → DlOutcome)
    (sendOk : SendCall → Bool) (h : wd = 5 ∨ wd = 6) :
    mainRun wd dateStr env trans u dl sendOk = ⟨0, 0, [], 0, []⟩ := by
  have hw : is_weekday wd = false := by
    cases h with
    | inl h5 => subst h5; decide
    | inr h6 => subst h6; decide
  unfold mainRun
  rw [hw]
  rfl

/-- Witness for C9 on a concrete Saturday run. -/
theorem c9_weekend_noop_witness :
    (5 = 5 ∨ 5 = 6) ∧
      mainRun 5 dateOct envOk trans401 uZero dlLeak sendAlwaysOk = ⟨0, 0, [], 0, []⟩ :=
  ⟨Or.inl rfl,
    c9_weekend_noop 5 dateOct envOk trans401 uZero dlLeak sendAlwaysOk (Or.inl rfl)⟩

theorem retryAux_attempts_le (trans : Nat → TransResult) (u : Nat → ℚ) (mr : Nat) :
    ∀ (fuel retries : Nat) (sleeps : List ℚ) (att : Nat),
      (retryAux trans u mr fuel retries sleeps att).attempts ≤ att + fuel := by
  intro fuel
  induction fuel with
  | zero => intro retries sleeps att; simp [retryAux]
  | succ f ih =>
    intro retries sleeps att
    rw [retryAux]
    split
    · show att + 1 ≤ att + (f + 1)
      omega
    · split
      · have hh := ih (retries + 1) (sleeps ++ [2 ^ retries + u retries]) (att + 1)
        omega
      · split
        · have hh := ih (retries + 1) (sleeps ++ [1]) (att + 1)
          omega
        · split
          · show att + 1 ≤ att + (f + 1)
            omega
          · split
            · have hh := ih (retries + 1) (sleeps ++ [1]) (att + 1)
              omega
            · show att + 1 ≤ att + (f + 1)
              omega

/-- C10: the retry loop always terminates — its loop variant is
`max_retries - retries`, modelled as fuel — making at most `max_retries`
request attempts in total, and every execution yields either a parsed
response or a propagated error. -/
theorem c10_retry_terminates (trans : Nat → TransResult) (u : Nat → ℚ) (n : Nat)
    (h : 1 ≤ n) :
    (generate_with_retry trans u n).attempts ≤ n ∧
    ((∃ r, (generate_with_retry trans u n).outcome = Except.ok r) ∨
      (∃ e, (generate_with_retry trans u n).outcome = Except.error e)) := by
  constructor
  · have hle := retryAux_attempts_le trans u n n 0 [] 0
    simpa [generate_with_retry] using hle
  · cases hout : (generate_with_retry trans u n).outcome with
    | ok r => exact Or.inl ⟨r, rfl⟩
    | error e => exact Or.inr ⟨e, rfl⟩

/-- Witness for C10 with the default three retries and a failing endpoint. -/
theorem c10_retry_terminates_witness :
    1 ≤ 3 ∧
      ((generate_with_retry trans401 uZero 3).attempts ≤ 3 ∧
        ((∃ r, (generate_with_retry trans401 uZero 3).outcome = Except.ok r) ∨
          (∃ e, (generate_with_retry trans401 uZero 3).outcome = Except.error e))) :=
  ⟨by decide, c10_retry_terminates trans401 uZero 3 (by decide)⟩
